import Mathlib

set_option linter.unusedVariables false

/-!
Verification development for the ASL compiler passes of this repository
(semantic type checking, symbol collection, and TAC code generation).

The repository ships several variants of the visitors:
  * `examen`   : src/examen/asl/TypeCheckVisitor.cpp and CodeGenVisitor.cpp
  * `CL-lab`   : src/CL-lab/practica/asl/TypeCheckVisitor.cpp (called `lab` below)
  * `practica` : src/practica/asl/CodeGenVisitor.cpp
  * `examen-2022` : src/examen-2022/asl/SymbolsVisitor.cpp

The shared collaborators `TypesMgr`, `SymTable` and the `instruction` model
(`common/TypesMgr.*`, `common/SymTable.*`, `common/code.*`) are not among the
provided sources; they are modelled from the spec (sections 3, 4.1, 4.2 and 6),
and every such definition is marked `Modelled from the spec:` in its doc string.
All other definitions are direct transliterations of the named visitor methods;
tree visits performed on sub-nodes are represented by taking the sub-results
(decorated types, code attributes) as arguments, exactly as the visitor reads
them back from the decoration table.
-/

/-- Modelled from the spec: the structural types interned by the types manager
(spec section 3): `Error | Void | Integer | Float | Boolean | Character |
Array {size, elem} | Function {params, ret}`. -/
inductive Ty where
  | error
  | void
  | integer
  | float
  | boolean
  | character
  | array (size : Nat) (elem : Ty)
  | func (params : List Ty) (ret : Ty)

mutual

/-- Modelled from the spec: structural equality of types.  The types manager
interns structures, so `TypeId` equality coincides with structural equality
(spec section 3: "Types are value-equal by structure"). -/
def Ty.beq : Ty → Ty → Bool
  | .error, .error => true
  | .void, .void => true
  | .integer, .integer => true
  | .float, .float => true
  | .boolean, .boolean => true
  | .character, .character => true
  | .array n e, .array m f => n == m && Ty.beq e f
  | .func ps r, .func qs s => Ty.beqList ps qs && Ty.beq r s
  | _, _ => false

/-- Modelled from the spec: pointwise structural equality of parameter lists. -/
def Ty.beqList : List Ty → List Ty → Bool
  | [], [] => true
  | t :: ts, u :: us => Ty.beq t u && Ty.beqList ts us
  | _, _ => false

end

/-- Modelled from the spec: `TypesMgr::isErrorTy`. -/
def Ty.isErrorTy : Ty → Bool
  | .error => true
  | _ => false

/-- Modelled from the spec: `TypesMgr::isVoidTy`. -/
def Ty.isVoidTy : Ty → Bool
  | .void => true
  | _ => false

/-- Modelled from the spec: `TypesMgr::isIntegerTy`. -/
def Ty.isIntegerTy : Ty → Bool
  | .integer => true
  | _ => false

/-- Modelled from the spec: `TypesMgr::isFloatTy`. -/
def Ty.isFloatTy : Ty → Bool
  | .float => true
  | _ => false

/-- Modelled from the spec: `TypesMgr::isBooleanTy`. -/
def Ty.isBooleanTy : Ty → Bool
  | .boolean => true
  | _ => false

/-- Modelled from the spec: `TypesMgr::isCharacterTy`. -/
def Ty.isCharacterTy : Ty → Bool
  | .character => true
  | _ => false

/-- Modelled from the spec: `TypesMgr::isPrimitiveTy` — any scalar
(Integer, Float, Boolean or Character). -/
def Ty.isPrimitiveTy : Ty → Bool
  | .integer => true
  | .float => true
  | .boolean => true
  | .character => true
  | _ => false

/-- Modelled from the spec: `TypesMgr::isNumericTy` — Integer or Float. -/
def Ty.isNumericTy : Ty → Bool
  | .integer => true
  | .float => true
  | _ => false

/-- Modelled from the spec: `TypesMgr::isArrayTy`. -/
def Ty.isArrayTy : Ty → Bool
  | .array _ _ => true
  | _ => false

/-- Modelled from the spec: `TypesMgr::isFunctionTy`. -/
def Ty.isFunctionTy : Ty → Bool
  | .func _ _ => true
  | _ => false

/-- Modelled from the spec: `TypesMgr::isVoidFunction` — a function type whose
return type is Void. -/
def Ty.isVoidFunction : Ty → Bool
  | .func _ ret => ret.isVoidTy
  | _ => false

/-- Modelled from the spec: `TypesMgr::getFuncReturnType`.  Only meaningful on
function types (the visitors only call it after an `isFunctionTy` or
non-error guard); totalised with `Ty.error` elsewhere. -/
def Ty.getFuncReturnType : Ty → Ty
  | .func _ ret => ret
  | _ => .error

/-- Modelled from the spec: the formal parameter types of a function type
(`TypesMgr::getParameterType` reads them positionally); empty elsewhere. -/
def Ty.funcParams : Ty → List Ty
  | .func ps _ => ps
  | _ => []

/-- Modelled from the spec: `TypesMgr::copyableTypes dst src` (spec sections 3
and 8): true when `dst == src` structurally (which subsumes the equal-size,
equal-element array clause, since types are interned), or both are numeric and
`dst` is Float (the Int→Float widening), or either side is the error sentinel
(`copyable(_, Error) = copyable(Error, _) = true`). -/
def copyableTypes (dst src : Ty) : Bool :=
  dst.isErrorTy || src.isErrorTy || Ty.beq dst src
    || (dst.isNumericTy && src.isNumericTy && dst.isFloatTy)

/-- Transliterated from `TypeCheckVisitor::getTypeCoercion` (examen lines
702-708; the CL-lab copy at lines 612-618 is identical): Float if either
operand type is Float, else Integer. -/
def getTypeCoercion (t1 t2 : Ty) : Ty :=
  if t1.isFloatTy || t2.isFloatTy then Ty.float else Ty.integer

/-- Transliterated from the examen `TypeCheckVisitor::visitReturnStmt`
(lines 223-251).  `exprTy` is the decorated type of the return expression
(`none` when the statement has no expression, in which case the source uses
`createVoidTy`); `currFunctionTy` is the current function type.  Returns true
iff `Errors.incompatibleReturn` is emitted: the source guards with
`not isErrorTy(t2)` and then emits when `not copyableTypes(ret, t1)`. -/
def visitReturnStmt_examen (exprTy : Option Ty) (currFunctionTy : Ty) : Bool :=
  let t1 := exprTy.getD Ty.void
  if currFunctionTy.isErrorTy then false
  else
    let ret := currFunctionTy.getFuncReturnType
    !copyableTypes ret t1

/-- Transliterated from the CL-lab `TypeCheckVisitor::visitReturnStmt`
(lines 193-221).  Identical to the examen variant except for the argument
order of the copyable check: the source emits when
`not copyableTypes(t1, ret)`, i.e. expression type first. -/
def visitReturnStmt_lab (exprTy : Option Ty) (currFunctionTy : Ty) : Bool :=
  let t1 := exprTy.getD Ty.void
  if currFunctionTy.isErrorTy then false
  else
    let ret := currFunctionTy.getFuncReturnType
    !copyableTypes t1 ret

/-- Arithmetic operators of the `Arithmetic` expression rule. -/
inductive ArithOp where
  | plus
  | minus
  | mul
  | div
  | mod

/-- Decide whether the operator token is `%`, as the examen source does with
`ctx->op->getText() == "%"`. -/
def ArithOp.isMod : ArithOp → Bool
  | .mod => true
  | _ => false

/-- Transliterated from the examen `TypeCheckVisitor::visitArithmetic`
(lines 403-434).  Result: (IncompatibleOperator emitted, decorated type,
decorated isLValue).  The local `t` starts as Integer; the `%` branch checks
both operands for Integer and leaves `t` untouched, the other branch checks
both operands for numeric and sets `t = getTypeCoercion(t1, t2)`. -/
def visitArithmetic_examen (op : ArithOp) (t1 t2 : Ty) : Bool × Ty × Bool :=
  if op.isMod then
    ((!t1.isErrorTy && !t1.isIntegerTy) || (!t2.isErrorTy && !t2.isIntegerTy),
     Ty.integer, false)
  else
    ((!t1.isErrorTy && !t1.isNumericTy) || (!t2.isErrorTy && !t2.isNumericTy),
     getTypeCoercion t1 t2, false)

/-- Transliterated from the CL-lab `TypeCheckVisitor::visitArithmetic`
(lines 339-360).  No special case for `%`: every operator uses the numeric
check and the coercion result. -/
def visitArithmetic_lab (op : ArithOp) (t1 t2 : Ty) : Bool × Ty × Bool :=
  ((!t1.isErrorTy && !t1.isNumericTy) || (!t2.isErrorTy && !t2.isNumericTy),
   getTypeCoercion t1 t2, false)

/-- Transliterated from `TypeCheckVisitor::visitReadStmt` (examen lines
191-207; the CL-lab copy at lines 230-241 is identical).  `t1` is the
decorated type of the target left-expression and `isLVal` its isLValue
decoration.  Result: (ReadWriteRequireBasic emitted, NonReferenceableExpression
emitted). -/
def visitReadStmt (t1 : Ty) (isLVal : Bool) : Bool × Bool :=
  ((!t1.isErrorTy && !t1.isPrimitiveTy && !t1.isFunctionTy),
   (!t1.isErrorTy && !isLVal))

/-- Modelled from the spec: the class of a symbol table entry
(`LocalVar | Parameter | Function`, spec section 3). -/
inductive SymKind where
  | localVar
  | parameter
  | function

/-- Modelled from the spec: a symbol table entry — a class together with the
symbol's type. -/
structure SymEntry where
  kind : SymKind
  ty : Ty

/-- Modelled from the spec: one lexical scope, mapping names to entries.
New entries are prepended; lookup scans for the first match by name. -/
abbrev Scope := List (String × SymEntry)

/-- Modelled from the spec: the symbol table — a stack of scopes with the
global scope at the bottom (spec sections 3 and 4.2). -/
structure SymTable where
  stack : List Scope

/-- Modelled from the spec: `SymTable::pushNewScope` — push a fresh, empty
scope (the scope's name only identifies it for later `pushThisScope`
re-entry and does not affect its contents, so it is not modelled). -/
def pushNewScope (st : SymTable) : SymTable :=
  ⟨[] :: st.stack⟩

/-- Modelled from the spec: `SymTable::pushThisScope` — re-enter a scope
created earlier; modelled by pushing that scope's contents. -/
def pushThisScope (s : Scope) (st : SymTable) : SymTable :=
  ⟨s :: st.stack⟩

/-- Modelled from the spec: `SymTable::popScope`. -/
def popScope (st : SymTable) : SymTable :=
  ⟨st.stack.tail⟩

/-- Modelled from the spec: `SymTable::findInCurrentScope` — does the name
exist in the innermost scope? -/
def findInCurrentScope (name : String) (st : SymTable) : Bool :=
  (st.stack.headD []).any (fun e => e.1 == name)

/-- Modelled from the spec: add an entry to the innermost scope (shared body
of `addLocalVar`, `addParameter` and `addFunction`). -/
def addEntry (name : String) (e : SymEntry) (st : SymTable) : SymTable :=
  match st.stack with
  | [] => st
  | s :: rest => ⟨((name, e) :: s) :: rest⟩

/-- Modelled from the spec: `SymTable::addParameter`. -/
def addParameter (name : String) (t : Ty) (st : SymTable) : SymTable :=
  addEntry name ⟨SymKind.parameter, t⟩ st

/-- Modelled from the spec: `SymTable::addLocalVar`. -/
def addLocalVar (name : String) (t : Ty) (st : SymTable) : SymTable :=
  addEntry name ⟨SymKind.localVar, t⟩ st

/-- Modelled from the spec: `SymTable::addFunction`. -/
def addFunction (name : String) (t : Ty) (st : SymTable) : SymTable :=
  addEntry name ⟨SymKind.function, t⟩ st

/-- Transliterated from `SymbolsVisitor::visitParameter` (examen-2022 lines
132-151): if the name already exists in the current scope, emit
`declaredIdent` and write no type decoration; otherwise decorate the
parameter node with its type and register it.  The second component is the
type decoration written on the node (`none` when the duplicate branch writes
nothing). -/
def visitParameter_symbols (st : SymTable) (name : String) (ty : Ty) :
    SymTable × Option Ty :=
  if findInCurrentScope name st then (st, none)
  else (addParameter name ty st, some ty)

/-- The parameter loop of `SymbolsVisitor::visitFunction` (examen-2022 lines
87-97): visit each parameter in order and collect the type decoration that
`getTypeDecor` reads back for each parameter node. -/
def paramsLoop : SymTable → List (String × Ty) → SymTable × List (Option Ty)
  | st, [] => (st, [])
  | st, p :: ps =>
    let r := visitParameter_symbols st p.1 p.2
    let rest := paramsLoop r.1 ps
    (rest.1, r.2 :: rest.2)

/-- Transliterated from `SymbolsVisitor::visitVariable_decl` (examen-2022
lines 160-185): for each declared identifier, register it as a local variable
of the declaration's type unless the name already exists in the current
scope (in which case `declaredIdent` is emitted instead). -/
def visitVariable_decl_symbols : SymTable → Ty → List String → SymTable
  | st, _, [] => st
  | st, ty, id :: ids =>
    visitVariable_decl_symbols
      (if findInCurrentScope id st then st else addLocalVar id ty st) ty ids

/-- Transliterated from `SymbolsVisitor::visitDeclarations` (examen-2022 lines
153-158): visit each variable declaration in order. -/
def declsLoop : SymTable → List (Ty × List String) → SymTable
  | st, [] => st
  | st, d :: ds => declsLoop (visitVariable_decl_symbols st d.1 d.2) ds

/-- The state of the symbol table just before the `popScope` call inside
`SymbolsVisitor::visitFunction`: a fresh scope named after the function has
been pushed and the parameters and local declarations registered in it
(examen-2022 lines 81-99). -/
def functionInnerState (st : SymTable) (params : List (String × Ty))
    (decls : List (Ty × List String)) : SymTable :=
  declsLoop (paramsLoop (pushNewScope st) params).1 decls

/-- Transliterated from `SymbolsVisitor::visitFunction` (examen-2022 lines
77-130): push a scope named after the function, visit the parameters
(collecting their decorated types) and the declarations, pop the scope, and
only then — unless the name is already declared in the (now current)
enclosing scope, which emits `declaredIdent` — build
`Function(params, ret)` with `ret` defaulting to Void, decorate the function
node with it and register the function symbol.  The second component is the
type decoration written on the function node.  A parameter node left
undecorated by the duplicate branch of `visitParameter` makes the C++
`getTypeDecor` read an unwritten attribute; that unreachable-under-distinct-
names case is totalised with `Ty.error`. -/
def visitFunction_symbols (st : SymTable) (funcName : String)
    (params : List (String × Ty)) (decls : List (Ty × List String))
    (retOpt : Option Ty) : SymTable × Option Ty :=
  let pr := paramsLoop (pushNewScope st) params
  let lParamsTy := pr.2.map (fun d => d.getD Ty.error)
  let st4 := popScope (declsLoop pr.1 decls)
  if findInCurrentScope funcName st4 then (st4, none)
  else
    let tFunc := Ty.func lParamsTy (retOpt.getD Ty.void)
    (addFunction funcName tFunc st4, some tFunc)

/-- A function node of the syntax tree, as far as the symbols pass consumes
it: its name, its parameters with their declared types, its variable
declarations, and its optional declared return type. -/
structure FuncDecl where
  name : String
  params : List (String × Ty)
  decls : List (Ty × List String)
  ret : Option Ty

/-- The function loop of `SymbolsVisitor::visitProgram`: visit every function
node in order. -/
def programLoop_symbols : SymTable → List FuncDecl → SymTable
  | st, [] => st
  | st, f :: fs =>
    programLoop_symbols (visitFunction_symbols st f.name f.params f.decls f.ret).1 fs

/-- Transliterated from `SymbolsVisitor::visitProgram` (examen-2022 lines
64-75): push a fresh global scope, visit every function, pop. -/
def visitProgram_symbols (st : SymTable) (funcs : List FuncDecl) : SymTable :=
  popScope (programLoop_symbols (pushNewScope st) funcs)

/-- Transliterated from the examen `TypeCheckVisitor::visitFunction` (lines
87-107) as far as the scope stack is concerned: `pushThisScope` the scope
recorded on the node, visit the statements (statement visits in this pass
only read the table), `popScope`. -/
def visitFunction_typecheck (st : SymTable) (sc : Scope) : SymTable :=
  popScope (pushThisScope sc st)

/-- The function loop of the examen `TypeCheckVisitor::visitProgram`. -/
def programLoop_typecheck : SymTable → List Scope → SymTable
  | st, [] => st
  | st, sc :: scs => programLoop_typecheck (visitFunction_typecheck st sc) scs

/-- Transliterated from the examen `TypeCheckVisitor::visitProgram` (lines
71-84) as far as the scope stack is concerned: `pushThisScope` the global
scope, visit every function, `popScope` (the `noMainProperlyDeclared` check
and `Errors.print` do not touch the scope stack). -/
def visitProgram_typecheck (st : SymTable) (sc : Scope)
    (funcScopes : List Scope) : SymTable :=
  popScope (programLoop_typecheck (pushThisScope sc st) funcScopes)

/-- Transliterated from the examen `CodeGenVisitor::visitFunction` (lines
89-129) as far as the scope stack is concerned: `pushThisScope`, build the
subroutine (reads only), `popScope`. -/
def visitFunction_codegen (st : SymTable) (sc : Scope) : SymTable :=
  popScope (pushThisScope sc st)

/-- The function loop of the examen `CodeGenVisitor::visitProgram`. -/
def programLoop_codegen : SymTable → List Scope → SymTable
  | st, [] => st
  | st, sc :: scs => programLoop_codegen (visitFunction_codegen st sc) scs

/-- Transliterated from the examen `CodeGenVisitor::visitProgram` (lines
70-86) as far as the scope stack is concerned: `pushThisScope` the global
scope, visit every function, `popScope`. -/
def visitProgram_codegen (st : SymTable) (sc : Scope)
    (funcScopes : List Scope) : SymTable :=
  popScope (programLoop_codegen (pushThisScope sc st) funcScopes)

/-- Modelled from the spec: the TAC instruction schema (spec section 6).
`PUSH`/`POP` take an optional operand (argument marshalling versus the
argumentless result-slot forms). -/
inductive Instr where
  | ILOAD (d s : String)
  | FLOAD (d s : String)
  | CHLOAD (d s : String)
  | LOAD (d s : String)
  | FLOAT (d s : String)
  | ALOAD (d s : String)
  | LOADX (d b o : String)
  | XLOAD (b o s : String)
  | PUSH (src : Option String)
  | POP (dst : Option String)
  | CALL (name : String)
  | RETURN
  | LABEL (l : String)
  | UJUMP (l : String)
  | FJUMP (c l : String)
deriving DecidableEq

/-- The `(addr, offs, code)` triple returned by the codegen visits
(class `CodeGenVisitor::CodeAttribs`). -/
structure CodeAttribs where
  addr : String
  offs : String
  code : List Instr

/-- A fresh temporary name: the sources build it as
`"%" + codeCounters.newTEMP()` from the per-subroutine counter. -/
def tempName (n : Nat) : String :=
  "%" ++ toString n

/-- The quote-stripping of the examen `visitValue`:
`value.substr(1, value.size()-2)` removes the first and the last character
(modelled over the string's character list). -/
def stripQuotes (s : String) : String :=
  String.mk ((s.data.drop 1).dropLast)

/-- The literal alternatives of the `value` rule
(`INTVAL | FLOATVAL | CHARVAL | BOOLVAL`). -/
inductive LitKind where
  | intval
  | floatval
  | charval
  | boolval

/-- Transliterated from the examen `CodeGenVisitor::visitValue` (lines
838-866): load the literal text into a fresh temporary with the opcode of
its kind; a character literal is first stripped of its delimiting quotes
with `substr(1, size-2)`, a boolean becomes `1` or `0`.  Returns the
attributes and the advanced temporary counter. -/
def visitValue_examen (kind : LitKind) (text : String) (n : Nat) :
    CodeAttribs × Nat :=
  let temp := tempName n
  let code : List Instr :=
    match kind with
    | .intval => [Instr.ILOAD temp text]
    | .floatval => [Instr.FLOAD temp text]
    | .charval => [Instr.CHLOAD temp (stripQuotes text)]
    | .boolval => [Instr.ILOAD temp (if text = "false" then "0" else "1")]
  (⟨temp, "", code⟩, n + 1)

/-- Transliterated from the practica `CodeGenVisitor::visitValue` (lines
560-586): identical to the examen variant except that a character literal
is emitted as `CHLOAD temp, ctx->getText()` — the delimiting quotes are
kept. -/
def visitValue_practica (kind : LitKind) (text : String) (n : Nat) :
    CodeAttribs × Nat :=
  let temp := tempName n
  let code : List Instr :=
    match kind with
    | .intval => [Instr.ILOAD temp text]
    | .floatval => [Instr.FLOAD temp text]
    | .charval => [Instr.CHLOAD temp text]
    | .boolval => [Instr.ILOAD temp (if text = "false" then "0" else "1")]
  (⟨temp, "", code⟩, n + 1)

/-- Transliterated from the examen `CodeGenVisitor::visitIfStmt` (lines
292-333).  `cond` is the condition's code attributes, `thenCode` and
`elseCode` the instruction lists of the two statement blocks (`none` when
the `else` branch is absent), `isParam` the `Symbols.isParameterClass`
predicate, `n` the temporary counter at the materialisation point and
`label` the number returned by `codeCounters.newLabelIF()`.  An indexed
condition (`offs` non-empty) is materialised through `LOADX`, with a
base-pointer `LOAD` detour when the array is a by-reference parameter. -/
def visitIfStmt_examen (cond : CodeAttribs) (thenCode : List Instr)
    (elseCode : Option (List Instr)) (isParam : String → Bool) (n : Nat)
    (label : String) : List Instr :=
  let materialized : List Instr × String :=
    if cond.offs ≠ "" then
      if isParam cond.addr then
        (cond.code ++ [Instr.LOAD (tempName n) cond.addr,
                       Instr.LOADX (tempName n) (tempName n) cond.offs],
         tempName n)
      else
        (cond.code ++ [Instr.LOADX cond.addr cond.addr cond.offs], cond.addr)
    else (cond.code, cond.addr)
  match elseCode with
  | some els =>
      materialized.1 ++ [Instr.FJUMP materialized.2 ("else" ++ label)]
        ++ thenCode ++ [Instr.UJUMP ("endif" ++ label),
                        Instr.LABEL ("else" ++ label)]
        ++ els ++ [Instr.LABEL ("endif" ++ label)]
  | none =>
      materialized.1 ++ [Instr.FJUMP materialized.2 ("endif" ++ label)]
        ++ thenCode ++ [Instr.LABEL ("endif" ++ label)]

/-- Transliterated from the practica `CodeGenVisitor::visitIfStmt` (lines
203-224).  Only `statements(0)` is visited; the source carries the comment
"TODO: MISSING ELSE CODE" and emits
`code1 || FJUMP(addr1, endifLabel) || code2 || LABEL(endifLabel)` whether or
not an `else` branch exists, so `elseCode` is ignored. -/
def visitIfStmt_practica (cond : CodeAttribs) (thenCode : List Instr)
    (elseCode : Option (List Instr)) (label : String) : List Instr :=
  cond.code ++ [Instr.FJUMP cond.addr ("endif" ++ label)]
    ++ thenCode ++ [Instr.LABEL ("endif" ++ label)]

/-- The data the function-call lowering reads back from one visited argument
expression: its address, its instruction list, and its decorated type. -/
structure ArgInfo where
  addr : String
  code : List Instr
  tExpr : Ty

/-- The three instruction lists and the temporary counter produced by the
argument loop of `visitFunction_call`. -/
structure ArgsResult where
  argCode : List Instr
  pushCode : List Instr
  popCode : List Instr
  counter : Nat

/-- One iteration of the examen argument loop (lines 985-992): the address
pushed for the argument, the coercion code, and the advanced counter.  An
Integer actual against a Float formal is widened through `FLOAT`; a local
array actual against an array formal is materialised with `ALOAD`
(address-of); otherwise the address is pushed unchanged. -/
def coerceTemp_examen (isLocal : String → Bool) (tParam : Ty) (a : ArgInfo)
    (n : Nat) : String × List Instr × Nat :=
  if a.tExpr.isIntegerTy && tParam.isFloatTy then
    (tempName n, [Instr.FLOAT (tempName n) a.addr], n + 1)
  else if tParam.isArrayTy && isLocal a.addr then
    (tempName n, [Instr.ALOAD (tempName n) a.addr], n + 1)
  else (a.addr, [], n)

/-- The argument loop of the examen `visitFunction_call` (lines 974-996):
for each argument, append its code and its coercion code, queue
`PUSH(tempAddr1)` and an argumentless `POP()`.  The formal types are
consumed positionally (`getParameterType(tFunc, i)`); an exhausted formal
list is totalised with `Ty.error` (unreachable after a successful arity
check). -/
def processArgs_examen (isLocal : String → Bool) :
    List Ty → List ArgInfo → Nat → ArgsResult
  | _, [], n => ⟨[], [], [], n⟩
  | ps, a :: as, n =>
    let c := coerceTemp_examen isLocal (ps.headD Ty.error) a n
    let rest := processArgs_examen isLocal ps.tail as c.2.2
    ⟨a.code ++ c.2.1 ++ rest.argCode,
     Instr.PUSH (some c.1) :: rest.pushCode,
     Instr.POP none :: rest.popCode,
     rest.counter⟩

/-- Transliterated from the examen `CodeGenVisitor::visitFunction_call`
(lines 959-1009): `PUSH()` an empty result slot when the callee is not a
void function; run the argument loop; emit the queued pushes, `CALL`, and
the queued argumentless pops; when the callee is not a void function,
`POP(temp)` the result into a fresh temporary which becomes the call's
address (otherwise the address stays empty). -/
def visitFunction_call_examen (tFunc : Ty) (funcName : String)
    (args : List ArgInfo) (isLocal : String → Bool) (n : Nat) :
    CodeAttribs × Nat :=
  let initCode : List Instr :=
    if tFunc.isVoidFunction then [] else [Instr.PUSH none]
  let r := processArgs_examen isLocal tFunc.funcParams args n
  let code := initCode ++ r.argCode ++ r.pushCode ++ [Instr.CALL funcName]
    ++ r.popCode
  if tFunc.isVoidFunction then (⟨"", "", code⟩, r.counter)
  else
    (⟨tempName r.counter, "", code ++ [Instr.POP (some (tempName r.counter))]⟩,
     r.counter + 1)

/-- One iteration of the practica argument loop (lines 636-642): the
coercion code and advanced counter.  Unlike the examen variant, the `ALOAD`
case fires for every array formal (no local check) and — the pushed address
being `addr1`, not the coerced temporary — the loop body never changes what
is pushed. -/
def coerceCode_practica (tParam : Ty) (a : ArgInfo) (n : Nat) :
    List Instr × Nat :=
  if a.tExpr.isIntegerTy && tParam.isFloatTy then
    ([Instr.FLOAT (tempName n) a.addr], n + 1)
  else if tParam.isArrayTy then
    ([Instr.ALOAD (tempName n) a.addr], n + 1)
  else ([], n)

/-- The argument loop of the practica `visitFunction_call` (lines 625-646):
as in the examen variant, but `PUSH(addr1)` pushes the original address. -/
def processArgs_practica :
    List Ty → List ArgInfo → Nat → ArgsResult
  | _, [], n => ⟨[], [], [], n⟩
  | ps, a :: as, n =>
    let c := coerceCode_practica (ps.headD Ty.error) a n
    let rest := processArgs_practica ps.tail as c.2
    ⟨a.code ++ c.1 ++ rest.argCode,
     Instr.PUSH (some a.addr) :: rest.pushCode,
     Instr.POP none :: rest.popCode,
     rest.counter⟩

/-- Transliterated from the practica `CodeGenVisitor::visitFunction_call`
(lines 612-658): the initial `PUSH()` for the result slot and the final
`POP(temp)` into a fresh temporary are emitted unconditionally, with no
void-function check. -/
def visitFunction_call_practica (tFunc : Ty) (funcName : String)
    (args : List ArgInfo) (n : Nat) : CodeAttribs × Nat :=
  let r := processArgs_practica tFunc.funcParams args n
  let code := Instr.PUSH none :: r.argCode ++ r.pushCode
    ++ [Instr.CALL funcName] ++ r.popCode
    ++ [Instr.POP (some (tempName r.counter))]
  (⟨tempName r.counter, "", code⟩, r.counter + 1)

/-- Transliterated from the examen `CodeGenVisitor::visitProcCall` (lines
356-365): visit the function call, keep its instruction list and discard
its address. -/
def visitProcCall_examen (codAts : CodeAttribs) : List Instr :=
  codAts.code

/-- Transliterated from the practica `CodeGenVisitor::visitProcCall` (lines
247-257): the body is commented out, so the statement returns an empty
instruction list and never visits the function call. -/
def visitProcCall_practica : List Instr :=
  []

/-- Claim C1: for a return statement in a function whose type is not ErrorTy,
IncompatibleReturn is emitted iff `copyable(declaredReturn, exprType)` is
false, with the declared return type as the destination (first) argument.
The examen variant satisfies this for every function type and expression
type; the CL-lab variant swaps the arguments, and at declared return Float
with an Integer return expression it emits the error even though
`copyable(Float, Integer)` is true. -/
theorem return_copyable_direction :
    (∀ (ps : List Ty) (r : Ty) (exprTy : Option Ty),
        visitReturnStmt_examen exprTy (Ty.func ps r)
          = !copyableTypes r (exprTy.getD Ty.void))
    ∧ visitReturnStmt_lab (some Ty.integer) (Ty.func [] Ty.float) = true
    ∧ copyableTypes Ty.float Ty.integer = true := by
  refine ⟨fun ps r exprTy => ?_, rfl, rfl⟩
  simp [visitReturnStmt_examen, Ty.isErrorTy, Ty.getFuncReturnType]

/-- Claim C3 counterexample: in the examen variant a `%` node over two Float
operands is decorated Integer, not Float, contradicting the claim that every
arithmetic node is decorated Float when an operand is Float. -/
theorem mod_float_operands_decorated_integer :
    Ty.isFloatTy Ty.float = true
    ∧ (visitArithmetic_examen ArithOp.mod Ty.float Ty.float).2.1 = Ty.integer
    ∧ (visitArithmetic_examen ArithOp.mod Ty.float Ty.float).2.1 ≠ Ty.float := by
  refine ⟨rfl, rfl, ?_⟩
  simp [visitArithmetic_examen, ArithOp.isMod]

/-- Claim C3 (amended): in the examen variant, `%` emits IncompatibleOperator
iff some operand is neither ErrorTy nor Integer and the node is decorated
Integer regardless of the operands, while the other arithmetic operators
emit iff some operand is neither ErrorTy nor numeric and are decorated Float
when either operand is Float, else Integer; the CL-lab variant applies the
numeric check and the Float/Integer coercion uniformly to all five
operators, `%` included.  Both variants decorate `isLValue = false`. -/
theorem arithmetic_check_and_decoration :
    ∀ (op : ArithOp) (t1 t2 : Ty),
      visitArithmetic_examen op t1 t2
        = (if op.isMod
           then (!((t1.isErrorTy || t1.isIntegerTy)
                    && (t2.isErrorTy || t2.isIntegerTy)),
                 Ty.integer, false)
           else (!((t1.isErrorTy || t1.isNumericTy)
                    && (t2.isErrorTy || t2.isNumericTy)),
                 (if t1.isFloatTy || t2.isFloatTy then Ty.float else Ty.integer),
                 false))
      ∧ visitArithmetic_lab op t1 t2
        = (!((t1.isErrorTy || t1.isNumericTy)
              && (t2.isErrorTy || t2.isNumericTy)),
           (if t1.isFloatTy || t2.isFloatTy then Ty.float else Ty.integer),
           false) := by
  intro op t1 t2
  constructor
  · cases h : op.isMod <;>
      simp [visitArithmetic_examen, h, getTypeCoercion, Bool.not_and, Bool.not_or]
  · simp [visitArithmetic_lab, getTypeCoercion, Bool.not_and, Bool.not_or]

/-- Claim C6 counterexample: a read target of function type (not ErrorTy, not
primitive) does not make the type checker emit ReadWriteRequireBasic — both
variants additionally exempt function types — contradicting the claimed
"iff the target's type is not primitive". -/
theorem read_function_type_no_basic_error :
    Ty.isErrorTy (Ty.func [] Ty.void) = false
    ∧ Ty.isPrimitiveTy (Ty.func [] Ty.void) = false
    ∧ (visitReadStmt (Ty.func [] Ty.void) true).1 = false :=
  ⟨rfl, rfl, rfl⟩

/-- Claim C6 (amended): for a read target whose decorated type is not ErrorTy,
ReadWriteRequireBasic is emitted iff the type is neither primitive nor a
function type, and NonReferenceableExpression is emitted iff the target's
isLValue decoration is false. -/
theorem readstmt_error_conditions :
    ∀ (t : Ty) (lv : Bool), t.isErrorTy = false →
      (visitReadStmt t lv).1 = (!t.isPrimitiveTy && !t.isFunctionTy)
      ∧ (visitReadStmt t lv).2 = !lv := by
  intro t lv h
  simp [visitReadStmt, h]

/-- Witness for `readstmt_error_conditions` at the concrete target type
`Function([], Void)` with `isLValue = false`. -/
theorem readstmt_error_conditions_witness :
    Ty.isErrorTy (Ty.func [] Ty.void) = false
    ∧ ((visitReadStmt (Ty.func [] Ty.void) false).1
         = (!(Ty.func [] Ty.void).isPrimitiveTy
             && !(Ty.func [] Ty.void).isFunctionTy)
       ∧ (visitReadStmt (Ty.func [] Ty.void) false).2 = !false) :=
  ⟨rfl, readstmt_error_conditions (Ty.func [] Ty.void) false rfl⟩

/-- Claim C10: both arithmetic type-check variants decorate every arithmetic
node with Integer or Float and never with ErrorTy, and when neither operand
is Float (in particular when the operands are ErrorTy) the node is decorated
Integer, so error types do not propagate through arithmetic nodes. -/
theorem arithmetic_decoration_never_error :
    ∀ (op : ArithOp) (t1 t2 : Ty),
      (((visitArithmetic_examen op t1 t2).2.1 = Ty.integer
         ∨ (visitArithmetic_examen op t1 t2).2.1 = Ty.float)
       ∧ (visitArithmetic_examen op t1 t2).2.1.isErrorTy = false
       ∧ ((visitArithmetic_lab op t1 t2).2.1 = Ty.integer
           ∨ (visitArithmetic_lab op t1 t2).2.1 = Ty.float)
       ∧ (visitArithmetic_lab op t1 t2).2.1.isErrorTy = false)
      ∧ (t1.isFloatTy = false → t2.isFloatTy = false →
          (visitArithmetic_examen op t1 t2).2.1 = Ty.integer
          ∧ (visitArithmetic_lab op t1 t2).2.1 = Ty.integer) := by
  intro op t1 t2
  constructor
  · cases h : op.isMod <;>
      cases h1 : t1.isFloatTy <;> cases h2 : t2.isFloatTy <;>
        simp [visitArithmetic_examen, visitArithmetic_lab, h, h1, h2,
          getTypeCoercion, Ty.isErrorTy]
  · intro h1 h2
    cases h : op.isMod <;>
      simp [visitArithmetic_examen, visitArithmetic_lab, h, h1, h2,
        getTypeCoercion]

/-- Witness for `arithmetic_decoration_never_error` at `+` over two ErrorTy
operands: the node is decorated Integer in both variants. -/
theorem arithmetic_decoration_never_error_witness :
    Ty.isFloatTy Ty.error = false
    ∧ ((visitArithmetic_examen ArithOp.plus Ty.error Ty.error).2.1 = Ty.integer
       ∧ (visitArithmetic_lab ArithOp.plus Ty.error Ty.error).2.1 = Ty.integer) :=
  ⟨rfl, (arithmetic_decoration_never_error ArithOp.plus Ty.error Ty.error).2 rfl rfl⟩

/-- The single-quote character delimiting a CHARVAL token. -/
def quoteChar : Char := '\''

theorem stripQuotes_wrap (c d : Char) (inner : List Char) :
    stripQuotes (String.mk (c :: (inner ++ [d]))) = String.mk inner := by
  simp [stripQuotes]

theorem processArgs_examen_popCode (isLocal : String → Bool) :
    ∀ (args : List ArgInfo) (ps : List Ty) (n : Nat),
      (processArgs_examen isLocal ps args n).popCode
        = List.replicate args.length (Instr.POP none) := by
  intro args
  induction args with
  | nil => intro ps n; rfl
  | cons a as ih => intro ps n; simp [processArgs_examen, ih, List.replicate]

theorem processArgs_examen_pushCode_length (isLocal : String → Bool) :
    ∀ (args : List ArgInfo) (ps : List Ty) (n : Nat),
      (processArgs_examen isLocal ps args n).pushCode.length = args.length := by
  intro args
  induction args with
  | nil => intro ps n; rfl
  | cons a as ih => intro ps n; simp [processArgs_examen, ih]

theorem processArgs_practica_popCode :
    ∀ (args : List ArgInfo) (ps : List Ty) (n : Nat),
      (processArgs_practica ps args n).popCode
        = List.replicate args.length (Instr.POP none) := by
  intro args
  induction args with
  | nil => intro ps n; rfl
  | cons a as ih => intro ps n; simp [processArgs_practica, ih, List.replicate]

theorem processArgs_practica_pushCode_length :
    ∀ (args : List ArgInfo) (ps : List Ty) (n : Nat),
      (processArgs_practica ps args n).pushCode.length = args.length := by
  intro args
  induction args with
  | nil => intro ps n; rfl
  | cons a as ih => intro ps n; simp [processArgs_practica, ih]

theorem visitFunction_call_examen_code (tFunc : Ty) (funcName : String)
    (args : List ArgInfo) (isLocal : String → Bool) (n : Nat) :
    (visitFunction_call_examen tFunc funcName args isLocal n).1.code
      = (if tFunc.isVoidFunction then ([] : List Instr) else [Instr.PUSH none])
        ++ (processArgs_examen isLocal tFunc.funcParams args n).argCode
        ++ (processArgs_examen isLocal tFunc.funcParams args n).pushCode
        ++ [Instr.CALL funcName]
        ++ List.replicate args.length (Instr.POP none)
        ++ (if tFunc.isVoidFunction then ([] : List Instr)
            else [Instr.POP (some (tempName
              (processArgs_examen isLocal tFunc.funcParams args n).counter))]) := by
  cases h : tFunc.isVoidFunction <;>
    simp [visitFunction_call_examen, h, processArgs_examen_popCode]

/-- Claim C4 counterexample: the practica variant lowers a call to a callee of
type `Function([], Void)` — a void return type — with an initial
argumentless PUSH all the same, contradicting the claimed "PUSH at the start
if and only if the callee's return type is not void". -/
theorem practica_void_call_still_pushes :
    Ty.isVoidFunction (Ty.func [] Ty.void) = true
    ∧ (visitFunction_call_practica (Ty.func [] Ty.void) "f" [] 0).1.code.head?
        = some (Instr.PUSH none) :=
  ⟨rfl, rfl⟩

/-- Claim C4 (amended): in the examen variant the lowered call starts with an
argumentless PUSH iff the callee's return type is not void, emits one
argumentless POP per pushed argument after the CALL, and ends with a POP
into a fresh temporary — which becomes the call's address — iff the return
type is not void; the practica variant emits the initial PUSH and the final
POP into a fresh temporary unconditionally, with the same one argumentless
POP per pushed argument. -/
theorem function_call_push_pop_structure :
    ∀ (tFunc : Ty) (funcName : String) (args : List ArgInfo)
      (isLocal : String → Bool) (n : Nat),
      ((visitFunction_call_examen tFunc funcName args isLocal n).1.code
         = (if tFunc.isVoidFunction then ([] : List Instr) else [Instr.PUSH none])
           ++ (processArgs_examen isLocal tFunc.funcParams args n).argCode
           ++ (processArgs_examen isLocal tFunc.funcParams args n).pushCode
           ++ [Instr.CALL funcName]
           ++ List.replicate args.length (Instr.POP none)
           ++ (if tFunc.isVoidFunction then ([] : List Instr)
               else [Instr.POP (some (tempName
                 (processArgs_examen isLocal tFunc.funcParams args n).counter))])
       ∧ (processArgs_examen isLocal tFunc.funcParams args n).pushCode.length
           = args.length
       ∧ (visitFunction_call_examen tFunc funcName args isLocal n).1.addr
           = (if tFunc.isVoidFunction then ""
              else tempName (processArgs_examen isLocal tFunc.funcParams args n).counter))
      ∧ ((visitFunction_call_practica tFunc funcName args n).1.code
           = Instr.PUSH none
             :: ((processArgs_practica tFunc.funcParams args n).argCode
               ++ (processArgs_practica tFunc.funcParams args n).pushCode
               ++ [Instr.CALL funcName]
               ++ List.replicate args.length (Instr.POP none)
               ++ [Instr.POP (some (tempName
                    (processArgs_practica tFunc.funcParams args n).counter))])
         ∧ (processArgs_practica tFunc.funcParams args n).pushCode.length
             = args.length
         ∧ (visitFunction_call_practica tFunc funcName args n).1.addr
             = tempName (processArgs_practica tFunc.funcParams args n).counter) := by
  intro tFunc funcName args isLocal n
  refine ⟨⟨visitFunction_call_examen_code tFunc funcName args isLocal n,
           processArgs_examen_pushCode_length isLocal args tFunc.funcParams n, ?_⟩,
          ?_, processArgs_practica_pushCode_length args tFunc.funcParams n, rfl⟩
  · cases h : tFunc.isVoidFunction <;> simp [visitFunction_call_examen, h]
  · simp [visitFunction_call_practica, processArgs_practica_popCode]

/-- Claim C2: in the examen variant a procedure-call statement emits exactly
the instruction list of the same call lowered as an expression (the result
address is discarded), and that list contains the CALL instruction; in the
practica variant the statement emits the empty instruction list — no CALL at
all — although the expression lowering of the same call is non-empty (shown
at the concrete call `f()` to a void callee). -/
theorem proccall_statement_emits_call :
    (∀ (tFunc : Ty) (funcName : String) (args : List ArgInfo)
       (isLocal : String → Bool) (n : Nat),
       visitProcCall_examen (visitFunction_call_examen tFunc funcName args isLocal n).1
         = (visitFunction_call_examen tFunc funcName args isLocal n).1.code
       ∧ Instr.CALL funcName
           ∈ visitProcCall_examen (visitFunction_call_examen tFunc funcName args isLocal n).1)
    ∧ (visitProcCall_practica = ([] : List Instr)
       ∧ (visitFunction_call_practica (Ty.func [] Ty.void) "f" [] 0).1.code
           = [Instr.PUSH none, Instr.CALL "f", Instr.POP (some (tempName 0))]) := by
  refine ⟨fun tFunc funcName args isLocal n => ⟨rfl, ?_⟩, rfl, rfl⟩
  simp only [visitProcCall_examen, visitFunction_call_examen_code]
  simp

/-- Claim C5: in the examen variant an if statement with a scalar condition
lowers to the condition code, `FJUMP cond, elseLabel` (or `endifLabel` when
there is no else branch), the then code, and — when the else branch exists —
`UJUMP endifLabel; LABEL elseLabel`, the else code, `LABEL endifLabel`; the
practica variant (comment "TODO: MISSING ELSE CODE") never includes the else
code: at a concrete if/else its output has no else label and drops the else
instruction entirely. -/
theorem ifstmt_lowering_structure :
    (∀ (addr : String) (condCode thenCode elseCode : List Instr)
       (isParam : String → Bool) (n : Nat) (label : String),
       visitIfStmt_examen ⟨addr, "", condCode⟩ thenCode (some elseCode) isParam n label
         = condCode ++ [Instr.FJUMP addr ("else" ++ label)] ++ thenCode
             ++ [Instr.UJUMP ("endif" ++ label), Instr.LABEL ("else" ++ label)]
             ++ elseCode ++ [Instr.LABEL ("endif" ++ label)]
       ∧ visitIfStmt_examen ⟨addr, "", condCode⟩ thenCode none isParam n label
         = condCode ++ [Instr.FJUMP addr ("endif" ++ label)] ++ thenCode
             ++ [Instr.LABEL ("endif" ++ label)])
    ∧ (visitIfStmt_practica ⟨"b", "", []⟩ [Instr.ILOAD "c" "1"]
         (some [Instr.ILOAD "c" "2"]) "1"
         = [Instr.FJUMP "b" "endif1", Instr.ILOAD "c" "1", Instr.LABEL "endif1"]
       ∧ Instr.ILOAD "c" "2"
           ∉ visitIfStmt_practica ⟨"b", "", []⟩ [Instr.ILOAD "c" "1"]
               (some [Instr.ILOAD "c" "2"]) "1") := by
  refine ⟨fun addr condCode thenCode elseCode isParam n label => ?_, ?_, ?_⟩
  · constructor <;> simp [visitIfStmt_examen]
  · rfl
  · decide

/-- Claim C8: the examen variant lowers a character literal by emitting
CHLOAD of a fresh temporary with the literal text stripped of its first and
last character, so the operand never keeps the delimiting quotes; the
practica variant emits the full token text, quotes included (shown at the
concrete literal consisting of the character a between single quotes). -/
theorem charval_strips_quotes :
    (∀ (inner : List Char) (n : Nat),
       (visitValue_examen LitKind.charval
          (String.mk (quoteChar :: (inner ++ [quoteChar]))) n).1.code
         = [Instr.CHLOAD (tempName n) (String.mk inner)])
    ∧ (visitValue_practica LitKind.charval
         (String.mk [quoteChar, 'a', quoteChar]) 0).1.code
        = [Instr.CHLOAD (tempName 0) (String.mk [quoteChar, 'a', quoteChar])] := by
  refine ⟨fun inner n => ?_, rfl⟩
  simp [visitValue_examen, stripQuotes_wrap]

theorem addEntry_stack_tail (nm : String) (e : SymEntry) (st : SymTable) :
    (addEntry nm e st).stack.tail = st.stack.tail := by
  obtain ⟨stack⟩ := st
  cases stack <;> rfl

theorem addEntry_stack_length (nm : String) (e : SymEntry) (st : SymTable) :
    (addEntry nm e st).stack.length = st.stack.length := by
  obtain ⟨stack⟩ := st
  cases stack <;> rfl

theorem findInCurrentScope_addEntry (q nm : String) (e : SymEntry)
    (st : SymTable) (h : nm ≠ q) :
    findInCurrentScope q (addEntry nm e st) = findInCurrentScope q st := by
  obtain ⟨stack⟩ := st
  cases stack with
  | nil => rfl
  | cons s rest => simp [addEntry, findInCurrentScope, h]

theorem addEntry_mem_head (nm : String) (e : SymEntry) (st : SymTable)
    (h : st.stack ≠ []) :
    (nm, e) ∈ (addEntry nm e st).stack.headD [] := by
  obtain ⟨stack⟩ := st
  cases stack with
  | nil => exact absurd rfl h
  | cons s rest => exact List.mem_cons_self _ _

theorem addEntry_mem_head_mono (nm : String) (e : SymEntry) (st : SymTable)
    (x : String × SymEntry) (h : x ∈ st.stack.headD []) :
    x ∈ (addEntry nm e st).stack.headD [] := by
  obtain ⟨stack⟩ := st
  cases stack with
  | nil => exact h
  | cons s rest => exact List.mem_cons_of_mem _ h

theorem addEntry_stack_ne_nil (nm : String) (e : SymEntry) (st : SymTable)
    (h : st.stack ≠ []) : (addEntry nm e st).stack ≠ [] := by
  obtain ⟨stack⟩ := st
  cases stack with
  | nil => exact absurd rfl h
  | cons s rest => simp [addEntry]

theorem visitParameter_symbols_stack_tail (st : SymTable) (nm : String)
    (t : Ty) : ((visitParameter_symbols st nm t).1).stack.tail = st.stack.tail := by
  unfold visitParameter_symbols
  split
  · rfl
  · exact addEntry_stack_tail nm ⟨SymKind.parameter, t⟩ st

theorem visitParameter_symbols_stack_length (st : SymTable) (nm : String)
    (t : Ty) :
    ((visitParameter_symbols st nm t).1).stack.length = st.stack.length := by
  unfold visitParameter_symbols
  split
  · rfl
  · exact addEntry_stack_length nm ⟨SymKind.parameter, t⟩ st

theorem paramsLoop_stack_tail :
    ∀ (params : List (String × Ty)) (st : SymTable),
      ((paramsLoop st params).1).stack.tail = st.stack.tail := by
  intro params
  induction params with
  | nil => intro st; rfl
  | cons p ps ih =>
    intro st
    simp only [paramsLoop]
    rw [ih, visitParameter_symbols_stack_tail]

theorem paramsLoop_stack_length :
    ∀ (params : List (String × Ty)) (st : SymTable),
      ((paramsLoop st params).1).stack.length = st.stack.length := by
  intro params
  induction params with
  | nil => intro st; rfl
  | cons p ps ih =>
    intro st
    simp only [paramsLoop]
    rw [ih, visitParameter_symbols_stack_length]

theorem visitVariable_decl_symbols_stack_tail (ty : Ty) :
    ∀ (ids : List String) (st : SymTable),
      (visitVariable_decl_symbols st ty ids).stack.tail = st.stack.tail := by
  intro ids
  induction ids with
  | nil => intro st; rfl
  | cons id ids ih =>
    intro st
    simp only [visitVariable_decl_symbols]
    rw [ih]
    split
    · rfl
    · exact addEntry_stack_tail id ⟨SymKind.localVar, ty⟩ st

theorem visitVariable_decl_symbols_stack_length (ty : Ty) :
    ∀ (ids : List String) (st : SymTable),
      (visitVariable_decl_symbols st ty ids).stack.length = st.stack.length := by
  intro ids
  induction ids with
  | nil => intro st; rfl
  | cons id ids ih =>
    intro st
    simp only [visitVariable_decl_symbols]
    rw [ih]
    split
    · rfl
    · exact addEntry_stack_length id ⟨SymKind.localVar, ty⟩ st

theorem declsLoop_stack_tail :
    ∀ (decls : List (Ty × List String)) (st : SymTable),
      (declsLoop st decls).stack.tail = st.stack.tail := by
  intro decls
  induction decls with
  | nil => intro st; rfl
  | cons d ds ih =>
    intro st
    simp only [declsLoop]
    rw [ih, visitVariable_decl_symbols_stack_tail]

theorem declsLoop_stack_length :
    ∀ (decls : List (Ty × List String)) (st : SymTable),
      (declsLoop st decls).stack.length = st.stack.length := by
  intro decls
  induction decls with
  | nil => intro st; rfl
  | cons d ds ih =>
    intro st
    simp only [declsLoop]
    rw [ih, visitVariable_decl_symbols_stack_length]

theorem visitParameter_symbols_free (st : SymTable) (nm : String) (t : Ty)
    (h : findInCurrentScope nm st = false) :
    visitParameter_symbols st nm t = (addParameter nm t st, some t) := by
  simp [visitParameter_symbols, h]

theorem visitParameter_symbols_mem_mono (st : SymTable) (nm : String) (t : Ty)
    (x : String × SymEntry) (h : x ∈ st.stack.headD []) :
    x ∈ ((visitParameter_symbols st nm t).1).stack.headD [] := by
  unfold visitParameter_symbols
  split
  · exact h
  · exact addEntry_mem_head_mono nm ⟨SymKind.parameter, t⟩ st x h

theorem paramsLoop_mem_mono :
    ∀ (params : List (String × Ty)) (st : SymTable) (x : String × SymEntry),
      x ∈ st.stack.headD [] → x ∈ ((paramsLoop st params).1).stack.headD [] := by
  intro params
  induction params with
  | nil => intro st x h; exact h
  | cons p ps ih =>
    intro st x h
    simp only [paramsLoop]
    exact ih _ x (visitParameter_symbols_mem_mono st p.1 p.2 x h)

theorem visitParameter_symbols_stack_ne_nil (st : SymTable) (nm : String)
    (t : Ty) (h : st.stack ≠ []) :
    ((visitParameter_symbols st nm t).1).stack ≠ [] := by
  unfold visitParameter_symbols
  split
  · exact h
  · exact addEntry_stack_ne_nil nm ⟨SymKind.parameter, t⟩ st h

theorem paramsLoop_mem_head :
    ∀ (params : List (String × Ty)) (st : SymTable),
      st.stack ≠ [] →
      (params.map Prod.fst).Nodup →
      (∀ p ∈ params, findInCurrentScope p.1 st = false) →
      ∀ p ∈ params,
        (p.1, SymEntry.mk SymKind.parameter p.2)
          ∈ ((paramsLoop st params).1).stack.headD [] := by
  intro params
  induction params with
  | nil => intro st _ _ _ p hp; exact absurd hp (List.not_mem_nil p)
  | cons q qs ih =>
    intro st hne hnd hfree p hp
    have hq : findInCurrentScope q.1 st = false :=
      hfree q (List.mem_cons_self _ _)
    have hnd' : (qs.map Prod.fst).Nodup :=
      (List.nodup_cons.mp (by simpa using hnd)).2
    have hni : q.1 ∉ qs.map Prod.fst :=
      (List.nodup_cons.mp (by simpa using hnd)).1
    have hfree' : ∀ r ∈ qs,
        findInCurrentScope r.1 (addParameter q.1 q.2 st) = false := by
      intro r hr
      have hner : q.1 ≠ r.1 := by
        intro h
        exact hni (h ▸ List.mem_map_of_mem Prod.fst hr)
      rw [addParameter, findInCurrentScope_addEntry _ _ _ _ hner]
      exact hfree r (List.mem_cons_of_mem _ hr)
    simp only [paramsLoop, visitParameter_symbols_free st q.1 q.2 hq]
    rcases List.mem_cons.mp hp with h | h
    · subst h
      exact paramsLoop_mem_mono qs _ _
        (addEntry_mem_head p.1 ⟨SymKind.parameter, p.2⟩ st hne)
    · exact ih (addParameter q.1 q.2 st)
        (addEntry_stack_ne_nil q.1 ⟨SymKind.parameter, q.2⟩ st hne)
        hnd' hfree' p h

theorem paramsLoop_decors :
    ∀ (params : List (String × Ty)) (st : SymTable),
      (params.map Prod.fst).Nodup →
      (∀ p ∈ params, findInCurrentScope p.1 st = false) →
      (paramsLoop st params).2 = params.map (fun p => some p.2) := by
  intro params
  induction params with
  | nil => intro st _ _; rfl
  | cons q qs ih =>
    intro st hnd hfree
    have hq : findInCurrentScope q.1 st = false :=
      hfree q (List.mem_cons_self _ _)
    have hnd' : (qs.map Prod.fst).Nodup :=
      (List.nodup_cons.mp (by simpa using hnd)).2
    have hni : q.1 ∉ qs.map Prod.fst :=
      (List.nodup_cons.mp (by simpa using hnd)).1
    have hfree' : ∀ r ∈ qs,
        findInCurrentScope r.1 (addParameter q.1 q.2 st) = false := by
      intro r hr
      have hner : q.1 ≠ r.1 := by
        intro h
        exact hni (h ▸ List.mem_map_of_mem Prod.fst hr)
      rw [addParameter, findInCurrentScope_addEntry _ _ _ _ hner]
      exact hfree r (List.mem_cons_of_mem _ hr)
    simp only [paramsLoop, visitParameter_symbols_free st q.1 q.2 hq,
      List.map_cons, List.cons.injEq]
    exact ⟨trivial, ih _ hnd' hfree'⟩

theorem visitVariable_decl_symbols_mem_mono (ty : Ty) :
    ∀ (ids : List String) (st : SymTable) (x : String × SymEntry),
      x ∈ st.stack.headD [] →
      x ∈ (visitVariable_decl_symbols st ty ids).stack.headD [] := by
  intro ids
  induction ids with
  | nil => intro st x h; exact h
  | cons id ids ih =>
    intro st x h
    simp only [visitVariable_decl_symbols]
    apply ih
    split
    · exact h
    · exact addEntry_mem_head_mono id ⟨SymKind.localVar, ty⟩ st x h

theorem declsLoop_mem_mono :
    ∀ (decls : List (Ty × List String)) (st : SymTable) (x : String × SymEntry),
      x ∈ st.stack.headD [] → x ∈ (declsLoop st decls).stack.headD [] := by
  intro decls
  induction decls with
  | nil => intro st x h; exact h
  | cons d ds ih =>
    intro st x h
    simp only [declsLoop]
    exact ih _ x (visitVariable_decl_symbols_mem_mono d.1 d.2 st x h)

theorem functionInnerState_stack_tail (st : SymTable)
    (params : List (String × Ty)) (decls : List (Ty × List String)) :
    (functionInnerState st params decls).stack.tail = st.stack := by
  unfold functionInnerState
  rw [declsLoop_stack_tail, paramsLoop_stack_tail]
  rfl

/-- Claim C7: the symbols pass handles a function node by pushing a nested
scope, registering the parameters (and local declarations) inside that
scope, popping it back to the enclosing scope, and only then — when the
function name is not already declared in the enclosing scope — registering
the function symbol there with type `Function(params, ret)`, `ret`
defaulting to Void when no return type is declared.  The conjuncts state:
the final table is exactly the input table with the function symbol added to
its current scope; the decoration written on the function node carries the
same type; the pre-pop inner state sits on top of the untouched enclosing
stack; and each parameter is registered inside that nested scope. -/
theorem function_symbol_added_after_scope_pop :
    ∀ (st : SymTable) (funcName : String) (params : List (String × Ty))
      (decls : List (Ty × List String)) (retOpt : Option Ty),
      (params.map Prod.fst).Nodup →
      findInCurrentScope funcName st = false →
      ((visitFunction_symbols st funcName params decls retOpt).1
         = addFunction funcName
             (Ty.func (params.map Prod.snd) (retOpt.getD Ty.void)) st
       ∧ (visitFunction_symbols st funcName params decls retOpt).2
         = some (Ty.func (params.map Prod.snd) (retOpt.getD Ty.void))
       ∧ (functionInnerState st params decls).stack.tail = st.stack
       ∧ ∀ p ∈ params,
           (p.1, SymEntry.mk SymKind.parameter p.2)
             ∈ (functionInnerState st params decls).stack.headD []) := by
  intro st funcName params decls retOpt hnd hfree
  have hfree' : ∀ p ∈ params, findInCurrentScope p.1 (pushNewScope st) = false :=
    fun p _ => rfl
  have hpop : popScope (declsLoop (paramsLoop (pushNewScope st) params).1 decls)
      = st := by
    show SymTable.mk
      (declsLoop (paramsLoop (pushNewScope st) params).1 decls).stack.tail = st
    rw [declsLoop_stack_tail, paramsLoop_stack_tail]
    rfl
  have hdec := paramsLoop_decors params (pushNewScope st) hnd hfree'
  have hmap : (paramsLoop (pushNewScope st) params).2.map (fun d => d.getD Ty.error)
      = params.map Prod.snd := by
    rw [hdec]
    simp
  have hvf : visitFunction_symbols st funcName params decls retOpt
      = (addFunction funcName
           (Ty.func (params.map Prod.snd) (retOpt.getD Ty.void)) st,
         some (Ty.func (params.map Prod.snd) (retOpt.getD Ty.void))) := by
    simp only [visitFunction_symbols, hpop, hfree, hmap, Bool.false_eq_true,
      if_false]
  refine ⟨congrArg Prod.fst hvf, congrArg Prod.snd hvf,
    functionInnerState_stack_tail st params decls, ?_⟩
  intro p hp
  apply declsLoop_mem_mono
  exact paramsLoop_mem_head params (pushNewScope st) (by simp [pushNewScope])
    hnd hfree' p hp

/-- Witness for `function_symbol_added_after_scope_pop`: a table holding one
empty scope, a function `f` with a single Integer parameter `x`, no local
declarations and no declared return type. -/
theorem function_symbol_added_after_scope_pop_witness :
    ([("x", Ty.integer)].map Prod.fst).Nodup
    ∧ findInCurrentScope "f" ⟨[[]]⟩ = false
    ∧ (visitFunction_symbols ⟨[[]]⟩ "f" [("x", Ty.integer)] [] none).1
        = addFunction "f"
            (Ty.func ([("x", Ty.integer)].map Prod.snd)
              ((none : Option Ty).getD Ty.void)) ⟨[[]]⟩ :=
  ⟨by simp, rfl,
   (function_symbol_added_after_scope_pop ⟨[[]]⟩ "f" [("x", Ty.integer)] []
      none (by simp) rfl).1⟩

theorem visitFunction_symbols_stack_length (st : SymTable) (funcName : String)
    (params : List (String × Ty)) (decls : List (Ty × List String))
    (retOpt : Option Ty) :
    ((visitFunction_symbols st funcName params decls retOpt).1).stack.length
      = st.stack.length := by
  have h4 : (popScope (declsLoop (paramsLoop (pushNewScope st) params).1
      decls)).stack.length = st.stack.length := by
    show ((declsLoop (paramsLoop (pushNewScope st) params).1
      decls).stack.tail).length = st.stack.length
    rw [List.length_tail, declsLoop_stack_length, paramsLoop_stack_length]
    simp [pushNewScope]
  simp only [visitFunction_symbols]
  split
  · exact h4
  · exact (addEntry_stack_length _ _ _).trans h4

theorem programLoop_symbols_stack_length :
    ∀ (funcs : List FuncDecl) (st : SymTable),
      (programLoop_symbols st funcs).stack.length = st.stack.length := by
  intro funcs
  induction funcs with
  | nil => intro st; rfl
  | cons f fs ih =>
    intro st
    simp only [programLoop_symbols]
    rw [ih, visitFunction_symbols_stack_length]

theorem programLoop_typecheck_stack_length :
    ∀ (scs : List Scope) (st : SymTable),
      (programLoop_typecheck st scs).stack.length = st.stack.length := by
  intro scs
  induction scs with
  | nil => intro st; rfl
  | cons sc scs ih =>
    intro st
    simp only [programLoop_typecheck]
    rw [ih]
    rfl

theorem programLoop_codegen_stack_length :
    ∀ (scs : List Scope) (st : SymTable),
      (programLoop_codegen st scs).stack.length = st.stack.length := by
  intro scs
  induction scs with
  | nil => intro st; rfl
  | cons sc scs ih =>
    intro st
    simp only [programLoop_codegen]
    rw [ih]
    rfl

/-- Claim C9: each of the three passes leaves the symbol table's scope stack
at the depth it had on entry to the program node: every scope pushed while
visiting a program or function node (`pushNewScope` in the symbols pass,
`pushThisScope` in type checking and code generation) is matched by exactly
one `popScope` before the visit returns. -/
theorem passes_preserve_scope_depth :
    ∀ (st : SymTable) (funcs : List FuncDecl) (sc : Scope)
      (fscopes : List Scope),
      (visitProgram_symbols st funcs).stack.length = st.stack.length
      ∧ (visitProgram_typecheck st sc fscopes).stack.length = st.stack.length
      ∧ (visitProgram_codegen st sc fscopes).stack.length = st.stack.length := by
  intro st funcs sc fscopes
  refine ⟨?_, ?_, ?_⟩
  · show ((programLoop_symbols (pushNewScope st) funcs).stack.tail).length
      = st.stack.length
    rw [List.length_tail, programLoop_symbols_stack_length]
    simp [pushNewScope]
  · show ((programLoop_typecheck (pushThisScope sc st) fscopes).stack.tail).length
      = st.stack.length
    rw [List.length_tail, programLoop_typecheck_stack_length]
    simp [pushThisScope]
  · show ((programLoop_codegen (pushThisScope sc st) fscopes).stack.tail).length
      = st.stack.length
    rw [List.length_tail, programLoop_codegen_stack_length]
    simp [pushThisScope]
